import Mathlib

/-
  Verification development for the event-horizon-protocol repository.

  The Solidity contracts (TalismanGame, TalismanAccount, TalismanAccountFactory,
  TalismanPaymaster, MockEntryPoint) and the frontend user-operation builder
  (useUserOperation.ts) are shallowly embedded below.  Machine integers are
  modelled as Nat with Solidity 0.8 checked arithmetic made explicit: uint256
  addition/multiplication reverts on overflow past 2^256, subtraction reverts
  on underflow, and the explicit narrowing casts uint128/uint64/uint32 truncate
  modulo their width, exactly as in the source.  A reverting call is modelled
  as returning none; since a revert rolls back every storage write, a none
  result means no state change.  Events are not modelled.  keccak256 is
  modelled as an injective function on word lists (the standard collision-free
  idealisation of a cryptographic hash).
-/

/-- Modulus of the EVM uint256 word type. -/
def U256 : Nat := 2 ^ 256

/-- Checked uint256 subtraction: Solidity 0.8 reverts on underflow. -/
def csub (a b : Nat) : Option Nat :=
  if b ≤ a then some (a - b) else none

/-- Checked uint256 addition: Solidity 0.8 reverts on overflow. -/
def cadd (a b : Nat) : Option Nat :=
  if a + b < U256 then some (a + b) else none

/-- Checked uint256 multiplication: Solidity 0.8 reverts on overflow. -/
def cmul (a b : Nat) : Option Nat :=
  if a * b < U256 then some (a * b) else none

/-- Checked uint128 addition, for in-place updates on uint128 storage slots. -/
def caddU128 (a b : Nat) : Option Nat :=
  if a + b < 2 ^ 128 then some (a + b) else none

/-- Explicit truncating cast to uint128, as written in the source. -/
def toU128 (x : Nat) : Nat := x % 2 ^ 128

/-- Explicit truncating cast to uint64, as written in the source. -/
def toU64 (x : Nat) : Nat := x % 2 ^ 64

/-- Explicit truncating cast to uint32, as written in the source. -/
def toU32 (x : Nat) : Nat := x % 2 ^ 32

/-- Pointwise update of a Solidity mapping, modelled as a function. -/
def upd {α : Type} (f : Nat → α) (k : Nat) (v : α) : Nat → α :=
  fun k2 => if k2 = k then v else f k2

/-- Idealised keccak256 over a list of words: an injective encoding into Nat
(collision-free idealisation of the hash). A nonempty input never encodes
to 0, matching the fact that a real contract address is never the zero
address. -/
def keccakM : List Nat → Nat
  | [] => 0
  | a :: l => Nat.pair a (keccakM l) + 1

/-- GameSession struct of ITalismanGame (uint64 startTime, uint64 endTime,
uint128 rewardEarned, uint32 talismansCollected, bool isActive). -/
structure GameSession where
  startTime : Nat
  endTime : Nat
  rewardEarned : Nat
  talismansCollected : Nat
  isActive : Bool
deriving DecidableEq

/-- VestingSchedule struct of ITalismanGame (uint128 totalAmount,
uint128 claimedAmount, uint64 startTime, uint64 duration). -/
structure VestingSchedule where
  totalAmount : Nat
  claimedAmount : Nat
  startTime : Nat
  duration : Nat
deriving DecidableEq

/-- Address of the TalismanGame contract in the model (any fixed nonzero
address). -/
def gameAddr : Nat := 2

/-- Combined storage of the TalismanGame contract together with the part of
the TLSM ERC-20 token it interacts with: token balances and the allowances
granted to the game contract as spender. -/
structure GameState where
  balances : Nat → Nat
  allowanceToGame : Nat → Nat
  sessionCost : Nat
  rewardRatePerSecond : Nat
  maxSessionDuration : Nat
  minSessionDuration : Nat
  vestingDuration : Nat
  totalUnclaimedRewards : Nat
  sessions : Nat → GameSession
  vestingSchedules : Nat → VestingSchedule
  attemptCounts : Nat → Nat
  paused : Bool

/-- OpenZeppelin ERC20 _transfer: reverts on the zero address and on an
insufficient balance; the two balance writes happen in order, so a
self-transfer is a no-op. -/
def erc20Transfer (src dst amt : Nat) (bal : Nat → Nat) : Option (Nat → Nat) :=
  if src = 0 then none
  else if dst = 0 then none
  else if amt ≤ bal src then
    let b1 := upd bal src (bal src - amt)
    some (upd b1 dst (b1 dst + amt))
  else none

/-- OpenZeppelin ERC20 _spendAllowance with the game contract as spender: an
allowance of type(uint256).max is treated as infinite and not decremented. -/
def spendAllowanceToGame (owner amt : Nat) (al : Nat → Nat) : Option (Nat → Nat) :=
  if al owner = U256 - 1 then some al
  else if amt ≤ al owner then some (upd al owner (al owner - amt)) else none

/-- safeTransferFrom(owner, address(this), amt) as called by TalismanGame. -/
def erc20TransferFromToGame (src amt : Nat) (s : GameState) : Option GameState :=
  (spendAllowanceToGame src amt s.allowanceToGame).bind fun al =>
    (erc20Transfer src gameAddr amt s.balances).bind fun b =>
      some { s with allowanceToGame := al, balances := b }

/-- TALISMAN_BONUS_PERCENT constant of TalismanGame. -/
def TALISMAN_BONUS_PERCENT : Nat := 10

/-- MAX_TALISMAN_BONUS constant of TalismanGame. -/
def MAX_TALISMAN_BONUS : Nat := 200

/-- TalismanGame.getClaimableAmount, evaluated at block timestamp now.  Both
subtractions are checked uint256 subtractions: if the vested amount is below
claimedAmount the call reverts (none). -/
def getClaimableAmount (player now : Nat) (s : GameState) : Option Nat :=
  let sch := s.vestingSchedules player
  if sch.totalAmount = 0 then some 0
  else if sch.duration = 0 then some 0
  else
    (csub now sch.startTime).bind fun elapsed =>
      if sch.duration ≤ elapsed then
        csub sch.totalAmount sch.claimedAmount
      else
        (cmul sch.totalAmount elapsed).bind fun te =>
          csub (te / sch.duration) sch.claimedAmount

/-- TalismanGame._addToVesting.  On a nonempty schedule the source first calls
getClaimableAmount (which can revert), writes the reset schedule, and then in
the currentlyVested > claimedAmount branch computes an adjustment that it
immediately overwrites with newTotal again, leaving the same reset schedule. -/
def addToVesting (player amount now : Nat) (s : GameState) : Option GameState :=
  let sch := s.vestingSchedules player
  if sch.totalAmount = 0 then
    let fresh : VestingSchedule :=
      { totalAmount := toU128 amount, claimedAmount := 0,
        startTime := toU64 now, duration := toU64 s.vestingDuration }
    some { s with vestingSchedules := upd s.vestingSchedules player fresh }
  else
    (getClaimableAmount player now s).bind fun claimable =>
      (cadd claimable sch.claimedAmount).bind fun currentlyVested =>
        (cadd sch.totalAmount amount).bind fun newTotal =>
          let resetSch : VestingSchedule :=
            { totalAmount := toU128 newTotal, claimedAmount := sch.claimedAmount,
              startTime := toU64 now, duration := toU64 s.vestingDuration }
          if sch.claimedAmount < currentlyVested then
            (csub currentlyVested sch.claimedAmount).bind fun alreadyVestedUnclaimed =>
              (csub newTotal alreadyVestedUnclaimed).bind fun _discarded =>
                some { s with vestingSchedules := upd s.vestingSchedules player resetSch }
          else
            some { s with vestingSchedules := upd s.vestingSchedules player resetSch }

/-- TalismanGame.startSession called by player at block timestamp now. -/
def startSession (player now : Nat) (s : GameState) : Option GameState :=
  if s.paused then none
  else if (s.sessions player).isActive then none
  else
    (cmul s.maxSessionDuration s.rewardRatePerSecond).bind fun maxPotentialReward =>
      (csub (s.balances gameAddr) s.totalUnclaimedRewards).bind fun availableRewards =>
        if availableRewards < maxPotentialReward then none
        else
          (erc20TransferFromToGame player s.sessionCost s).bind fun s2 =>
            let newSess : GameSession :=
              { startTime := toU64 now, endTime := 0, rewardEarned := 0,
                talismansCollected := 0, isActive := true }
            some { s2 with
              sessions := upd s2.sessions player newSess,
              attemptCounts := upd s2.attemptCounts player 1 }

/-- TalismanGame.endSession called by player at block timestamp now. -/
def endSession (player talismansCollected now : Nat) (s : GameState) : Option GameState :=
  if s.paused then none
  else
    let sess := s.sessions player
    if ¬ sess.isActive then none
    else
      (cadd sess.startTime s.minSessionDuration).bind fun minEnd =>
        if now < minEnd then none
        else
          (csub now sess.startTime).bind fun rawDuration =>
            let duration := if s.maxSessionDuration < rawDuration then s.maxSessionDuration else rawDuration
            (cmul duration s.rewardRatePerSecond).bind fun baseReward =>
              (cmul talismansCollected TALISMAN_BONUS_PERCENT).bind fun bonus0 =>
                let bonusPercent := if MAX_TALISMAN_BONUS < bonus0 then MAX_TALISMAN_BONUS else bonus0
                let multiplier := 100 + bonusPercent
                (cmul baseReward multiplier).bind fun rewardNum =>
                  let reward := rewardNum / 100
                  let endedSess : GameSession :=
                    { startTime := sess.startTime, endTime := toU64 now,
                      rewardEarned := toU128 reward,
                      talismansCollected := toU32 talismansCollected, isActive := false }
                  let s2 := { s with sessions := upd s.sessions player endedSess }
                  (addToVesting player reward now s2).bind fun s3 =>
                    (cadd s3.totalUnclaimedRewards reward).bind fun tur =>
                      some { s3 with totalUnclaimedRewards := tur }

/-- TalismanGame.retryGame called by player at block timestamp now. -/
def retryGame (player _now : Nat) (s : GameState) : Option GameState :=
  if s.paused then none
  else if ¬ (s.sessions player).isActive then none
  else
    (erc20TransferFromToGame player s.sessionCost s).bind fun s2 =>
      (cadd (s2.attemptCounts player) 1).bind fun ac =>
        some { s2 with attemptCounts := upd s2.attemptCounts player ac }

/-- TalismanGame.claimRewards called by player at block timestamp now. -/
def claimRewards (player now : Nat) (s : GameState) : Option GameState :=
  if s.paused then none
  else
    (getClaimableAmount player now s).bind fun claimable =>
      if claimable = 0 then none
      else
        let sch := s.vestingSchedules player
        (caddU128 sch.claimedAmount (toU128 claimable)).bind fun newClaimed =>
          (csub s.totalUnclaimedRewards claimable).bind fun tur =>
            (erc20Transfer gameAddr player claimable s.balances).bind fun b =>
              some { s with
                vestingSchedules := upd s.vestingSchedules player { sch with claimedAmount := newClaimed },
                totalUnclaimedRewards := tur,
                balances := b }

/-- Zero-initialised GameSession, the default value of the sessions mapping. -/
def emptySession : GameSession :=
  { startTime := 0, endTime := 0, rewardEarned := 0, talismansCollected := 0, isActive := false }

/-- Zero-initialised VestingSchedule, the default value of the schedules mapping. -/
def emptySchedule : VestingSchedule :=
  { totalAmount := 0, claimedAmount := 0, startTime := 0, duration := 0 }

/-- State of the engine right after the TalismanGame constructor ran, with the
default configuration from the constructor and arbitrary initial token
balances and approvals (token distribution happens outside the engine). -/
def initState (bal allow : Nat → Nat) : GameState :=
  { balances := bal
    allowanceToGame := allow
    sessionCost := 10 * 10 ^ 18
    rewardRatePerSecond := 10 ^ 18 / 60
    maxSessionDuration := 3600
    minSessionDuration := 60
    vestingDuration := 604800
    totalUnclaimedRewards := 0
    sessions := fun _ => emptySession
    vestingSchedules := fun _ => emptySchedule
    attemptCounts := fun _ => 0
    paused := false }

/-- Reachability of an engine state at a block timestamp by any interleaving
of the four player-facing calls at nondecreasing timestamps, starting from a
freshly constructed engine with arbitrary token balances and approvals. -/
inductive Reachable : Nat → GameState → Prop where
  | init (bal allow : Nat → Nat) (t : Nat) : Reachable t (initState bal allow)
  | tick {t s} (t2 : Nat) : Reachable t s → t ≤ t2 → Reachable t2 s
  | start {t s s2} (player : Nat) :
      Reachable t s → startSession player t s = some s2 → Reachable t s2
  | retry {t s s2} (player : Nat) :
      Reachable t s → retryGame player t s = some s2 → Reachable t s2
  | finish {t s s2} (player talismans : Nat) :
      Reachable t s → endSession player talismans t s = some s2 → Reachable t s2
  | claim {t s s2} (player : Nat) :
      Reachable t s → claimRewards player t s = some s2 → Reachable t s2

/-- Run a call, keeping the pre-state when it reverts (a revert rolls back
all storage writes). -/
def stepD (f : GameState → Option GameState) (s : GameState) : GameState :=
  (f s).getD s

/-- Initial token balances of the concrete trace: player 1 holds 10^20 wei of
TLSM and the game contract holds a 10^21 wei reward pool. -/
def bal0 : Nat → Nat :=
  fun a => if a = 1 then 10 ^ 20 else if a = gameAddr then 10 ^ 21 else 0

/-- Player 1 has granted the game contract an unlimited allowance. -/
def allow0 : Nat → Nat :=
  fun a => if a = 1 then U256 - 1 else 0

/-- Trace state 0: freshly constructed engine. -/
def tr0 : GameState := initState bal0 allow0

/-- Trace state 1: player 1 started a session at t = 0. -/
def tr1 : GameState := stepD (startSession 1 0) tr0

/-- Trace state 2: player 1 ended the session at t = 60 with 0 talismans,
earning 60 x rewardRatePerSecond = 999999999999999960 wei. -/
def tr2 : GameState := stepD (endSession 1 0 60) tr1

/-- Trace state 3: player 1 claimed the fully vested reward at t = 604860. -/
def tr3 : GameState := stepD (claimRewards 1 604860) tr2

/-- Trace state 4: player 1 started a second session at t = 604860. -/
def tr4 : GameState := stepD (startSession 1 604860) tr3

/-- Trace state 5: player 1 ended the second session at t = 604920.  The
vesting schedule now has totalAmount = 1999999999999999920,
claimedAmount = 999999999999999960 and startTime = 604920. -/
def tr5 : GameState := stepD (endSession 1 0 604920) tr4

/-- Trace state 6: player 1 started a third session at t = 604921. -/
def tr6 : GameState := stepD (startSession 1 604921) tr5

/-- Initial token balances for the pool-solvency trace: the game contract
holds exactly maxSessionDuration x rewardRatePerSecond wei, the minimum the
startSession capacity check accepts. -/
def balCx : Nat → Nat :=
  fun a => if a = 1 then 10 ^ 20 else if a = gameAddr then 59999999999999997600 else 0

/-- Pool-solvency trace state 0: freshly constructed engine with the minimal
reward pool. -/
def cx0 : GameState := initState balCx allow0

/-- Pool-solvency trace state 1: player 1 started a session at t = 0. -/
def cx1 : GameState := stepD (startSession 1 0) cx0

/-- Pool-solvency trace state 2: player 1 ended the session at t = 3600 with
20 talismans, crediting 3 x 3600 x rewardRatePerSecond = 179999999999999992800
wei against a pool of 69999999999999997600 wei. -/
def cx2 : GameState := stepD (endSession 1 20 3600) cx1

/-- Call data carried by a user operation, as the paymaster and the smart
account decode it: either well-formed execute(address,uint256,bytes) call
data (selector 0xb61d27f6 plus an ABI-encoded destination, value and inner
byte string), or any other byte string. -/
inductive CallData where
  | execute (dest : Nat) (value : Nat) (func : List Nat)
  | other (data : List Nat)
deriving DecidableEq

/-- UserOperation struct of IEntryPoint as used by the contracts. -/
structure EPUserOperation where
  sender : Nat
  nonce : Nat
  initCode : List Nat
  callData : CallData
  callGasLimit : Nat
  verificationGasLimit : Nat
  preVerificationGas : Nat
  maxFeePerGas : Nat
  maxPriorityFeePerGas : Nat
  paymasterAndData : List Nat
  signature : List Nat

/-- Address of the entry point contract in the model. -/
def entryPointAddr : Nat := 9

/-- MockEntryPoint.handleOps over a batch of operations.  For each operation
in order it increments the tracked nonce of op.sender and then executes
op.callData against op.sender; a failing inner call reverts the whole batch.
The inner call is abstracted by an executor over a world state, and the
executed (sender, callData) pairs are logged.  The user-operation hash the
source computes is only emitted in an event and events are not modelled. -/
def handleOps {W : Type} (exec : Nat → CallData → W → Option W) :
    List EPUserOperation → (Nat → Nat) → W → List (Nat × CallData) →
    Option ((Nat → Nat) × W × List (Nat × CallData))
  | [], nonces, w, log => some (nonces, w, log)
  | op :: rest, nonces, w, log =>
    let nonces2 := upd nonces op.sender (nonces op.sender + 1)
    (exec op.sender op.callData w).bind fun w2 =>
      handleOps exec rest nonces2 w2 (log ++ [(op.sender, op.callData)])

/-- Storage of a TalismanAccount: its owner (the nonce field of the account is
never read by the dispatch path). -/
structure AccountState where
  owner : Nat

/-- ECDSA.toEthSignedMessageHash: the personal-message wrapping of a digest,
modelled as hashing the digest together with a fixed prefix tag. -/
def ethSignedMessageHash (h : Nat) : Nat := keccakM [1945, h]

/-- ECDSA.recover, idealised: a signature is a pair of words carrying the
signer and the digest that was signed; recovery returns the carried signer
exactly when the digest matches, and an unowned address otherwise. -/
def ecrecover (h : Nat) (sig : List Nat) : Nat :=
  match sig with
  | [signer, signedHash] => if signedHash = h then signer else 0
  | _ => 0

/-- TalismanAccount._validateSignature: recovers the signer of the
eth-signed-message wrapping of the user-operation hash and compares it with
the owner; 0 means success, 1 means SIG_VALIDATION_FAILED. -/
def validateSignature (op : EPUserOperation) (userOpHash : Nat) (acct : AccountState) : Nat :=
  if ecrecover (ethSignedMessageHash userOpHash) op.signature = acct.owner then 0 else 1

/-- TalismanAccount.execute as reached through a raw call: only the owner or
the entry point may call it; the inner call to (dest, value, func) is
abstracted by runInner.  Any call data that is not an execute call hits no
function of the account and reverts. -/
def accountExecute (caller : Nat) (acct : AccountState) (cd : CallData)
    (runInner : Nat → Nat → List Nat → Option Unit) : Option Unit :=
  match cd with
  | CallData.execute dest value func =>
    if caller = acct.owner ∨ caller = entryPointAddr then runInner dest value func else none
  | CallData.other _ => none

/-- Executor that accepts every call, for exercising the dispatcher alone. -/
def execAccept : Nat → CallData → Unit → Option Unit := fun _ _ _ => some ()

/-- Fresh nonce table of the mock entry point: every sender is at nonce 0. -/
def noncesDemo : Nat → Nat := fun _ => 0

/-- A user operation whose nonce field (7) differs from the current tracked
nonce (0) of its sender, as when replaying an already-executed operation. -/
def opStale : EPUserOperation :=
  { sender := 5, nonce := 7, initCode := [], callData := CallData.execute gameAddr 0 [1, 2, 3, 4]
    callGasLimit := 500000, verificationGasLimit := 150000, preVerificationGas := 50000
    maxFeePerGas := 2, maxPriorityFeePerGas := 1, paymasterAndData := [], signature := [] }

/-- A demo account owned by address 7. -/
def acctDemo : AccountState := { owner := 7 }

/-- A user operation whose signature recovers to address 99, not to the
account owner 7. -/
def opBadSig : EPUserOperation :=
  { sender := 5, nonce := 0, initCode := [], callData := CallData.execute gameAddr 0 [1, 2, 3, 4]
    callGasLimit := 500000, verificationGasLimit := 150000, preVerificationGas := 50000
    maxFeePerGas := 2, maxPriorityFeePerGas := 1, paymasterAndData := []
    signature := [99, ethSignedMessageHash 42] }

/-- Executor wiring handleOps to the demo TalismanAccount: the entry point is
the caller of the account, and the inner game call is assumed to succeed. -/
def execViaAccount : Nat → CallData → Unit → Option Unit :=
  fun _ cd _ => accountExecute entryPointAddr acctDemo cd (fun _ _ _ => some ())

/-- Storage of the TalismanPaymaster. -/
structure PaymasterState where
  gameContract : Nat
  maxCostPerUserOp : Nat
  dailyLimitPerUser : Nat
  dailySponsorshipUsed : Nat → Nat
  lastSponsorshipReset : Nat → Nat
  allowedSelectors : Nat → Bool

/-- First four bytes of an inner call's byte string, read as a big-endian
selector (the source loads the first word of the bytes and truncates to
bytes4). -/
def selectorOf (func : List Nat) : Nat :=
  match func with
  | b0 :: b1 :: b2 :: b3 :: _ => ((b0 * 256 + b1) * 256 + b2) * 256 + b3
  | _ => 0

/-- TalismanPaymaster._shouldResetDailyLimit: true when at least 1 day has
elapsed since the last reset timestamp of the user. -/
def shouldResetDailyLimit (user now : Nat) (ps : PaymasterState) : Bool :=
  ps.lastSponsorshipReset user + 86400 ≤ now

/-- TalismanPaymaster._resetDailyLimitIfNeeded. -/
def resetDailyLimitIfNeeded (user now : Nat) (ps : PaymasterState) : PaymasterState :=
  if shouldResetDailyLimit user now ps then
    { ps with dailySponsorshipUsed := upd ps.dailySponsorshipUsed user 0,
              lastSponsorshipReset := upd ps.lastSponsorshipReset user now }
  else ps

/-- TalismanPaymaster._validateGameCall: the call data must be an execute call
whose destination is the registered game contract and whose inner byte string
is at least 4 bytes long with an allow-listed selector. -/
def validateGameCall (cd : CallData) (ps : PaymasterState) : Bool :=
  match cd with
  | CallData.execute dest _value func =>
    if dest ≠ ps.gameContract then false
    else if func.length < 4 then false
    else ps.allowedSelectors (selectorOf func)
  | CallData.other _ => false

/-- The daily sponsorship usage of a user after the lazy 24-hour window reset
the paymaster applies at validation time. -/
def adjustedDailyUsed (user now : Nat) (ps : PaymasterState) : Nat :=
  if shouldResetDailyLimit user now ps then 0 else ps.dailySponsorshipUsed user

/-- TalismanPaymaster.validatePaymasterUserOp called by caller at block
timestamp now.  On success it returns the updated storage, the context
(sender, maxCost) and validationData 0; on failure the transaction reverts,
rolling back the reset as well, so none means no state change. -/
def validatePaymasterUserOp (caller : Nat) (op : EPUserOperation)
    (_userOpHash maxCost now : Nat) (ps : PaymasterState) :
    Option (PaymasterState × ((Nat × Nat) × Nat)) :=
  if caller ≠ entryPointAddr then none
  else if ps.maxCostPerUserOp < maxCost then none
  else
    let ps2 := resetDailyLimitIfNeeded op.sender now ps
    (cadd (ps2.dailySponsorshipUsed op.sender) maxCost).bind fun total =>
      if ps2.dailyLimitPerUser < total then none
      else if ¬ validateGameCall op.callData ps2 then none
      else
        some ({ ps2 with dailySponsorshipUsed := upd ps2.dailySponsorshipUsed op.sender total },
              ((op.sender, maxCost), 0))

/-- Address of the TalismanAccount implementation deployed by the factory
constructor. -/
def accountImplementationAddr : Nat := 5

/-- Clones.predictDeterministicAddress and Clones.cloneDeterministic derive
the same CREATE2 address, a hash of the deployer-side inputs; both are
modelled by this one pure derivation. -/
def cloneDeterministicAddr (impl saltHash : Nat) : Nat :=
  keccakM [255, impl, saltHash]

/-- keccak256(abi.encodePacked(owner, salt)) used as the CREATE2 salt. -/
def saltHashOf (owner salt : Nat) : Nat := keccakM [owner, salt]

/-- Storage of the TalismanAccountFactory: the owner-to-account mapping, with
0 denoting the absent entry. -/
structure FactoryState where
  ownerToAccount : Nat → Nat

/-- TalismanAccountFactory.createAccount: returns the existing account if the
owner already has one, otherwise deploys a clone at the deterministic address
and records it. -/
def createAccount (owner salt : Nat) (fs : FactoryState) : Nat × FactoryState :=
  if fs.ownerToAccount owner ≠ 0 then (fs.ownerToAccount owner, fs)
  else
    let account := cloneDeterministicAddr accountImplementationAddr (saltHashOf owner salt)
    (account, { fs with ownerToAccount := upd fs.ownerToAccount owner account })

/-- TalismanAccountFactory.getAddress: the recorded account if one exists,
otherwise the predicted deterministic address. -/
def getAddress (owner salt : Nat) (fs : FactoryState) : Nat :=
  if fs.ownerToAccount owner ≠ 0 then fs.ownerToAccount owner
  else cloneDeterministicAddr accountImplementationAddr (saltHashOf owner salt)

/-- Fresh factory storage: no owner has an account yet. -/
def fsEmpty : FactoryState := { ownerToAccount := fun _ => 0 }

/-- UserOperation type of the frontend builder (useUserOperation.ts), with
byte strings as word lists. -/
structure UserOpTS where
  sender : Nat
  nonce : Nat
  initCode : List Nat
  callData : List Nat
  callGasLimit : Nat
  verificationGasLimit : Nat
  preVerificationGas : Nat
  maxFeePerGas : Nat
  maxPriorityFeePerGas : Nat
  paymasterAndData : List Nat
  signature : List Nat

/-- packUserOp of useUserOperation.ts: the ABI word sequence of every field
except the signature, with the variable-length fields pre-hashed. -/
def packUserOp (op : UserOpTS) : List Nat :=
  [op.sender, op.nonce, keccakM op.initCode, keccakM op.callData, op.callGasLimit,
   op.verificationGasLimit, op.preVerificationGas, op.maxFeePerGas,
   op.maxPriorityFeePerGas, keccakM op.paymasterAndData]

/-- getUserOpHash of useUserOperation.ts: the packed fields are hashed, and
that digest is hashed together with the entry point address and the chain id. -/
def getUserOpHash (op : UserOpTS) (entryPointAddress chainId : Nat) : Nat :=
  keccakM [keccakM (packUserOp op), entryPointAddress, chainId]

/-- A demo engine state whose player-1 schedule is half way through vesting:
100 wei total, 10 wei already claimed, duration 10 seconds from time 0. -/
def sDemo : GameState :=
  { tr0 with vestingSchedules := upd tr0.vestingSchedules 1 (VestingSchedule.mk 100 10 0 10) }

/-- A demo engine state whose player-1 schedule is empty but whose player-1
session is active since time 0. -/
def sDemoActive : GameState :=
  { tr0 with sessions := upd tr0.sessions 1 (GameSession.mk 0 0 0 0 true) }

/-- A demo paymaster: game contract registered, 1000 wei max cost per
operation, 10000 wei daily limit, selector 4919 allow-listed, and player 5
with 100 wei already used in the current window that started at time 0. -/
def psDemo : PaymasterState :=
  { gameContract := gameAddr, maxCostPerUserOp := 1000, dailyLimitPerUser := 10000
    dailySponsorshipUsed := fun a => if a = 5 then 100 else 0
    lastSponsorshipReset := fun _ => 0
    allowedSelectors := fun sel => sel = 4919 }

/-- A user operation whose call data invokes the allow-listed selector 4919
(bytes 0x00 0x00 0x13 0x37) on the game contract. -/
def opGame : EPUserOperation :=
  { sender := 5, nonce := 0, initCode := [], callData := CallData.execute gameAddr 0 [0, 0, 19, 55]
    callGasLimit := 500000, verificationGasLimit := 150000, preVerificationGas := 50000
    maxFeePerGas := 2, maxPriorityFeePerGas := 1, paymasterAndData := [], signature := [] }

/-- A demo frontend user operation with small concrete fields. -/
def opTSDemo : UserOpTS :=
  { sender := 5, nonce := 0, initCode := [], callData := [1, 2], callGasLimit := 3
    verificationGasLimit := 4, preVerificationGas := 5, maxFeePerGas := 6
    maxPriorityFeePerGas := 7, paymasterAndData := [], signature := [8] }

/-- Vesting formula exactly as the specification states it: vested(T) equals
totalAmount once the elapsed time reaches duration, else totalAmount x
elapsed / duration rounded down; an empty or zero-duration schedule vests
nothing.  Stated from the specification, for comparison with the source's
getClaimableAmount. -/
def vestedAt (sch : VestingSchedule) (t : Nat) : Nat :=
  if sch.totalAmount = 0 then 0
  else if sch.duration = 0 then 0
  else if sch.duration ≤ t - sch.startTime then sch.totalAmount
  else sch.totalAmount * (t - sch.startTime) / sch.duration

/-- Reward formula of the specification for endSession: duration capped at
maxDur, times the rate, scaled by 100 plus the capped talisman bonus, with
integer division by 100. -/
def rewardFormula (startTime maxDur rate tal now : Nat) : Nat :=
  min (now - startTime) maxDur * rate *
    (100 + min (tal * TALISMAN_BONUS_PERCENT) MAX_TALISMAN_BONUS) / 100

/-- Reset-on-add vesting accumulation policy exactly as the specification
states it: startTime is reset to now, duration is reset to the configured
vesting duration, totalAmount grows by the added amount (stored in a uint128
slot, hence truncated), and claimedAmount stays unchanged.  Stated from the
specification, for comparison with the source's _addToVesting. -/
def resetOnAddPolicy (player amount now : Nat) (s : GameState) : GameState :=
  let sch := s.vestingSchedules player
  let resetSch : VestingSchedule :=
    { totalAmount := toU128 (sch.totalAmount + amount), claimedAmount := sch.claimedAmount,
      startTime := toU64 now, duration := toU64 s.vestingDuration }
  { s with vestingSchedules := upd s.vestingSchedules player resetSch }

/-- Expected paymaster storage after a successful sponsorship validation, as
the claim describes it: the lazy daily reset applied, and the sender's daily
usage increased by exactly maxCost on top of the reset-adjusted value. -/
def paymasterAfterSponsor (user maxCost now : Nat) (ps : PaymasterState) : PaymasterState :=
  let psR := resetDailyLimitIfNeeded user now ps
  let used2 := upd psR.dailySponsorshipUsed user (adjustedDailyUsed user now ps + maxCost)
  { psR with dailySponsorshipUsed := used2 }

/-- Characterisation of a successful checked subtraction. -/
theorem csub_eq_some {a b c : Nat} : csub a b = some c ↔ b ≤ a ∧ a - b = c := by
  simp only [csub]
  split <;> simp_all

/-- Characterisation of a successful checked addition. -/
theorem cadd_eq_some {a b c : Nat} : cadd a b = some c ↔ a + b < U256 ∧ a + b = c := by
  simp only [cadd]
  split <;> simp_all

/-- Characterisation of a successful checked multiplication. -/
theorem cmul_eq_some {a b c : Nat} : cmul a b = some c ↔ a * b < U256 ∧ a * b = c := by
  simp only [cmul]
  split <;> simp_all

/-- Reading an updated mapping at the updated key. -/
theorem upd_same {α : Type} (f : Nat → α) (k : Nat) (v : α) : upd f k v k = v := by
  simp [upd]

/-- A successfully computed claimable amount never exceeds the schedule's
total amount. -/
theorem claimable_le_total {player now : Nat} {s : GameState} {c : Nat}
    (h : getClaimableAmount player now s = some c) :
    c ≤ (s.vestingSchedules player).totalAmount := by
  unfold getClaimableAmount at h
  simp only [] at h
  by_cases h0 : (s.vestingSchedules player).totalAmount = 0
  · rw [if_pos h0] at h
    simp at h
    omega
  · rw [if_neg h0] at h
    by_cases hd : (s.vestingSchedules player).duration = 0
    · rw [if_pos hd] at h
      simp at h
      omega
    · rw [if_neg hd, Option.bind_eq_some] at h
      obtain ⟨elapsed, hcs, h⟩ := h
      by_cases hdur : (s.vestingSchedules player).duration ≤ elapsed
      · rw [if_pos hdur, csub_eq_some] at h
        omega
      · rw [if_neg hdur, Option.bind_eq_some] at h
        obtain ⟨te, hte, h⟩ := h
        rw [cmul_eq_some] at hte
        rw [csub_eq_some] at h
        obtain ⟨hlt, hte2⟩ := hte
        obtain ⟨hle, hc⟩ := h
        subst hc
        subst hte2
        have hdpos : 0 < (s.vestingSchedules player).duration := by omega
        have h1 : (s.vestingSchedules player).totalAmount * elapsed ≤
            (s.vestingSchedules player).totalAmount * (s.vestingSchedules player).duration :=
          Nat.mul_le_mul_left _ (by omega)
        have h2 : (s.vestingSchedules player).totalAmount * elapsed /
              (s.vestingSchedules player).duration ≤
            (s.vestingSchedules player).totalAmount * (s.vestingSchedules player).duration /
              (s.vestingSchedules player).duration := Nat.div_le_div_right h1
        rw [Nat.mul_div_cancel _ hdpos] at h2
        omega

/-- The trace state tr5 is reachable at time 604920 by the five recorded
calls of player 1. -/
theorem tr5_reach : Reachable 604920 tr5 := by
  have h0 : Reachable 0 tr0 := Reachable.init bal0 allow0 0
  have h1 : Reachable 0 tr1 := Reachable.start 1 h0 rfl
  have h1b : Reachable 60 tr1 := Reachable.tick 60 h1 (by omega)
  have h2 : Reachable 60 tr2 := Reachable.finish 1 0 h1b rfl
  have h2b : Reachable 604860 tr2 := Reachable.tick 604860 h2 (by omega)
  have h3 : Reachable 604860 tr3 := Reachable.claim 1 h2b rfl
  have h4 : Reachable 604860 tr4 := Reachable.start 1 h3 rfl
  have h4b : Reachable 604920 tr4 := Reachable.tick 604920 h4 (by omega)
  exact Reachable.finish 1 0 h4b rfl

/-- The trace state tr6 is reachable at time 604981. -/
theorem tr6_reach : Reachable 604981 tr6 := by
  have h5 : Reachable 604921 tr5 := Reachable.tick 604921 tr5_reach (by omega)
  have h6 : Reachable 604921 tr6 := Reachable.start 1 h5 rfl
  exact Reachable.tick 604981 h6 (by omega)

/-- The pool-solvency trace state cx2 is reachable at time 3600. -/
theorem cx2_reach : Reachable 3600 cx2 := by
  have h0 : Reachable 0 cx0 := Reachable.init balCx allow0 0
  have h1 : Reachable 0 cx1 := Reachable.start 1 h0 rfl
  have h1b : Reachable 3600 cx1 := Reachable.tick 3600 h1 (by omega)
  exact Reachable.finish 1 20 h1b rfl

/-- C1: the claim is false on the code.  The state tr5 is reachable through
startSession/endSession/claimRewards calls of player 1 alone, yet at query
time T = 604920 the vested amount of the schedule (0, since the schedule was
just reset by _addToVesting) is strictly below claimedAmount
(999999999999999960), and getClaimableAmount reverts with an arithmetic
underflow instead of returning a nonnegative difference. -/
theorem C1_counterexample :
    Reachable 604920 tr5 ∧
    vestedAt (tr5.vestingSchedules 1) 604920 < (tr5.vestingSchedules 1).claimedAmount ∧
    getClaimableAmount 1 604920 tr5 = none :=
  ⟨tr5_reach, by decide, rfl⟩

/-- C1 amended: whenever the query time is not before the schedule's start
and the spec-side vested amount vestedAt is at least claimedAmount (and the
intermediate product fits in uint256), getClaimableAmount returns exactly
vestedAt minus claimedAmount, a nonnegative value, without reverting. -/
theorem C1_amended_claimable (player T : Nat) (s : GameState)
    (hstart : (s.vestingSchedules player).startTime ≤ T)
    (hmul : (s.vestingSchedules player).totalAmount * (T - (s.vestingSchedules player).startTime) < U256)
    (hv : (s.vestingSchedules player).claimedAmount ≤ vestedAt (s.vestingSchedules player) T) :
    getClaimableAmount player T s =
      some (vestedAt (s.vestingSchedules player) T - (s.vestingSchedules player).claimedAmount) := by
  unfold getClaimableAmount vestedAt at *
  simp only [] at *
  by_cases h0 : (s.vestingSchedules player).totalAmount = 0
  · simp only [if_pos h0] at hv ⊢
    simp only [Option.some.injEq]
    omega
  · simp only [if_neg h0] at hv ⊢
    by_cases hd : (s.vestingSchedules player).duration = 0
    · simp only [if_pos hd] at hv ⊢
      simp only [Option.some.injEq]
      omega
    · simp only [if_neg hd] at hv ⊢
      have hcs : csub T (s.vestingSchedules player).startTime =
          some (T - (s.vestingSchedules player).startTime) := by
        rw [csub_eq_some]
        exact ⟨hstart, rfl⟩
      rw [hcs, Option.some_bind]
      by_cases hdur : (s.vestingSchedules player).duration ≤ T - (s.vestingSchedules player).startTime
      · simp only [if_pos hdur] at hv ⊢
        rw [csub_eq_some]
        exact ⟨hv, rfl⟩
      · simp only [if_neg hdur] at hv ⊢
        have hcm : cmul (s.vestingSchedules player).totalAmount
            (T - (s.vestingSchedules player).startTime) =
            some ((s.vestingSchedules player).totalAmount *
              (T - (s.vestingSchedules player).startTime)) := by
          rw [cmul_eq_some]
          exact ⟨hmul, rfl⟩
        rw [hcm, Option.some_bind, csub_eq_some]
        exact ⟨hv, rfl⟩

/-- Closed witness for the amended C1 theorem at the half-vested demo
schedule: 20 wei are vested of which 10 are claimed, so 10 are claimable. -/
theorem C1_amended_claimable_witness :
    getClaimableAmount 1 2 sDemo =
      some (vestedAt (sDemo.vestingSchedules 1) 2 - (sDemo.vestingSchedules 1).claimedAmount) :=
  C1_amended_claimable 1 2 sDemo (by decide) (by decide) (by decide)

/-- Projections of a successful safeTransferFrom into the game: only the
token balances and allowances change. -/
theorem erc20TransferFromToGame_proj {src amt : Nat} {s st : GameState}
    (h : erc20TransferFromToGame src amt s = some st) :
    st.sessionCost = s.sessionCost ∧ st.maxSessionDuration = s.maxSessionDuration ∧
    st.rewardRatePerSecond = s.rewardRatePerSecond ∧ st.minSessionDuration = s.minSessionDuration ∧
    st.vestingDuration = s.vestingDuration ∧ st.totalUnclaimedRewards = s.totalUnclaimedRewards ∧
    st.sessions = s.sessions ∧ st.vestingSchedules = s.vestingSchedules ∧
    st.attemptCounts = s.attemptCounts ∧ st.paused = s.paused := by
  unfold erc20TransferFromToGame at h
  rw [Option.bind_eq_some] at h
  obtain ⟨al, _, h⟩ := h
  rw [Option.bind_eq_some] at h
  obtain ⟨b, _, h⟩ := h
  simp only [Option.some.injEq] at h
  subst h
  exact ⟨rfl, rfl, rfl, rfl, rfl, rfl, rfl, rfl, rfl, rfl⟩

/-- A successful startSession requires the pool to cover the base maximum
reward (without the talisman multiplier) on top of the unclaimed reserve, and
changes neither the configuration nor the unclaimed-reward counter. -/
theorem startSession_some_pool {player now : Nat} {s s2 : GameState}
    (h : startSession player now s = some s2) :
    s.totalUnclaimedRewards + s.maxSessionDuration * s.rewardRatePerSecond ≤ s.balances gameAddr ∧
    s2.maxSessionDuration = s.maxSessionDuration ∧
    s2.rewardRatePerSecond = s.rewardRatePerSecond ∧
    s2.totalUnclaimedRewards = s.totalUnclaimedRewards := by
  unfold startSession at h
  by_cases hp : s.paused = true
  · rw [if_pos hp] at h
    exact absurd h (by simp)
  · rw [if_neg hp] at h
    by_cases ha : (s.sessions player).isActive = true
    · rw [if_pos ha] at h
      exact absurd h (by simp)
    · rw [if_neg ha, Option.bind_eq_some] at h
      obtain ⟨maxPot, hmp, h⟩ := h
      rw [Option.bind_eq_some] at h
      obtain ⟨avail, hav, h⟩ := h
      rw [cmul_eq_some] at hmp
      rw [csub_eq_some] at hav
      by_cases hcap : avail < maxPot
      · rw [if_pos hcap] at h
        exact absurd h (by simp)
      · rw [if_neg hcap, Option.bind_eq_some] at h
        obtain ⟨st, ht, h⟩ := h
        simp only [Option.some.injEq] at h
        subst h
        obtain ⟨-, hmax, hrate, -, -, htur, -, -, -, -⟩ := erc20TransferFromToGame_proj ht
        refine ⟨by omega, hmax, hrate, htur⟩

/-- Projections of a successful _addToVesting: sessions, balances and the
unclaimed-reward counter are untouched, and the player's schedule total
becomes the uint128 truncation of the old total plus the added amount. -/
theorem addToVesting_proj {player amount now : Nat} {s s3 : GameState}
    (h : addToVesting player amount now s = some s3) :
    s3.sessions = s.sessions ∧ s3.totalUnclaimedRewards = s.totalUnclaimedRewards ∧
    s3.maxSessionDuration = s.maxSessionDuration ∧
    s3.rewardRatePerSecond = s.rewardRatePerSecond ∧
    (s3.vestingSchedules player).totalAmount =
      toU128 ((s.vestingSchedules player).totalAmount + amount) := by
  unfold addToVesting at h
  simp only [] at h
  by_cases h0 : (s.vestingSchedules player).totalAmount = 0
  · rw [if_pos h0] at h
    simp only [Option.some.injEq] at h
    subst h
    refine ⟨rfl, rfl, rfl, rfl, ?_⟩
    simp only [upd_same, h0, Nat.zero_add]
  · rw [if_neg h0, Option.bind_eq_some] at h
    obtain ⟨claimable, hcl, h⟩ := h
    rw [Option.bind_eq_some] at h
    obtain ⟨cv, hcv, h⟩ := h
    rw [Option.bind_eq_some] at h
    obtain ⟨nt, hnt, h⟩ := h
    rw [cadd_eq_some] at hnt
    by_cases hlt : (s.vestingSchedules player).claimedAmount < cv
    · rw [if_pos hlt, Option.bind_eq_some] at h
      obtain ⟨avu, havu, h⟩ := h
      rw [Option.bind_eq_some] at h
      obtain ⟨dsc, hdsc, h⟩ := h
      simp only [Option.some.injEq] at h
      subst h
      refine ⟨rfl, rfl, rfl, rfl, ?_⟩
      simp only [upd_same]
      rw [hnt.2]
    · rw [if_neg hlt] at h
      simp only [Option.some.injEq] at h
      subst h
      refine ⟨rfl, rfl, rfl, rfl, ?_⟩
      simp only [upd_same]
      rw [hnt.2]

/-- The specification's reward formula never exceeds three times the base
maximum reward maxDur x rate, the multiplier cap being 300 percent. -/
theorem rewardFormula_le (st maxDur rate tal now : Nat) :
    rewardFormula st maxDur rate tal now ≤ 3 * (maxDur * rate) := by
  unfold rewardFormula TALISMAN_BONUS_PERCENT MAX_TALISMAN_BONUS
  have h1 : min (now - st) maxDur * rate ≤ maxDur * rate :=
    Nat.mul_le_mul_right _ (Nat.min_le_right _ _)
  have h2 : min (now - st) maxDur * rate * (100 + min (tal * 10) 200) ≤
      maxDur * rate * 300 :=
    calc min (now - st) maxDur * rate * (100 + min (tal * 10) 200)
        ≤ maxDur * rate * (100 + min (tal * 10) 200) := Nat.mul_le_mul_right _ h1
      _ ≤ maxDur * rate * 300 := Nat.mul_le_mul_left _ (by omega)
  calc min (now - st) maxDur * rate * (100 + min (tal * 10) 200) / 100
      ≤ maxDur * rate * 300 / 100 := Nat.div_le_div_right h2
    _ = 3 * (maxDur * rate) := by
        rw [show maxDur * rate * 300 = 3 * (maxDur * rate) * 100 by ring]
        exact Nat.mul_div_cancel _ (by omega)

/-- Characterisation of a successful endSession: the session was active and
old enough, the stored rewardEarned is the (uint128-truncated) specification
reward formula, the unclaimed-reward counter grows by exactly that reward,
and the schedule total grows by it (uint128-truncated). -/
theorem endSession_char {player tal now : Nat} {s s2 : GameState}
    (h : endSession player tal now s = some s2) :
    (s.sessions player).isActive = true ∧
    (s.sessions player).startTime + s.minSessionDuration ≤ now ∧
    (s2.sessions player).rewardEarned =
      toU128 (rewardFormula (s.sessions player).startTime s.maxSessionDuration
        s.rewardRatePerSecond tal now) ∧
    s2.totalUnclaimedRewards = s.totalUnclaimedRewards +
      rewardFormula (s.sessions player).startTime s.maxSessionDuration
        s.rewardRatePerSecond tal now ∧
    (s2.vestingSchedules player).totalAmount =
      toU128 ((s.vestingSchedules player).totalAmount +
        rewardFormula (s.sessions player).startTime s.maxSessionDuration
          s.rewardRatePerSecond tal now) := by
  unfold endSession at h
  simp only [] at h
  by_cases hp : s.paused = true
  · rw [if_pos hp] at h
    exact absurd h (by simp)
  · rw [if_neg hp] at h
    by_cases ha : (s.sessions player).isActive = true
    case neg =>
      rw [if_pos (by simpa using ha)] at h
      exact absurd h (by simp)
    case pos =>
      rw [if_neg (by simpa using ha), Option.bind_eq_some] at h
      obtain ⟨minEnd, hme, h⟩ := h
      rw [cadd_eq_some] at hme
      by_cases hearly : now < minEnd
      · rw [if_pos hearly] at h
        exact absurd h (by simp)
      · rw [if_neg hearly, Option.bind_eq_some] at h
        obtain ⟨rawDuration, hrd, h⟩ := h
        rw [csub_eq_some] at hrd
        rw [Option.bind_eq_some] at h
        obtain ⟨baseReward, hbr, h⟩ := h
        rw [cmul_eq_some] at hbr
        rw [Option.bind_eq_some] at h
        obtain ⟨bonus0, hb0, h⟩ := h
        rw [cmul_eq_some] at hb0
        rw [Option.bind_eq_some] at h
        obtain ⟨rewardNum, hrn, h⟩ := h
        rw [cmul_eq_some] at hrn
        rw [Option.bind_eq_some] at h
        obtain ⟨s3, hav, h⟩ := h
        rw [Option.bind_eq_some] at h
        obtain ⟨tur, htur, h⟩ := h
        rw [cadd_eq_some] at htur
        simp only [Option.some.injEq] at h
        subst h
        obtain ⟨hsess, htur3, -, -, htot⟩ := addToVesting_proj hav
        have hreward : rewardNum / 100 =
            rewardFormula (s.sessions player).startTime s.maxSessionDuration
              s.rewardRatePerSecond tal now := by
          rw [← hrn.2, ← hbr.2, ← hb0.2]
          unfold rewardFormula
          have hdm : (if s.maxSessionDuration < rawDuration then s.maxSessionDuration
              else rawDuration) = min (now - (s.sessions player).startTime) s.maxSessionDuration := by
            rw [← hrd.2]
            split <;> omega
          have hbm : (if MAX_TALISMAN_BONUS < tal * TALISMAN_BONUS_PERCENT then MAX_TALISMAN_BONUS
              else tal * TALISMAN_BONUS_PERCENT) =
              min (tal * TALISMAN_BONUS_PERCENT) MAX_TALISMAN_BONUS := by
            split <;> omega
          rw [hdm] at *
          rw [hbm]
        refine ⟨ha, by omega, ?_, ?_, ?_⟩
        · show (s3.sessions player).rewardEarned = _
          rw [hsess]
          simp only [upd_same]
          rw [hreward]
        · show tur = _
          rw [← htur.2, hreward, htur3]
        · show (s3.vestingSchedules player).totalAmount = _
          rw [htot, hreward]

/-- C2: the claim is false on the code.  Starting from a freshly constructed
engine whose pool holds exactly maxSessionDuration x rewardRatePerSecond
(the minimum the startSession check accepts), one session ended with 20
talismans credits three times that, leaving totalUnclaimedRewards strictly
above the engine's token balance. -/
theorem C2_counterexample :
    Reachable 3600 cx2 ∧ cx2.balances gameAddr < cx2.totalUnclaimedRewards :=
  ⟨cx2_reach, by decide⟩

/-- C2 amended: the startSession capacity check only guarantees that the pool
covers the base maximum reward maxSessionDuration x rewardRatePerSecond,
without the talisman multiplier; the reward a later endSession credits is
bounded by three times that base maximum, so the reserve can be exceeded by
up to a factor of three. -/
theorem C2_amended (player now tal t2 : Nat) (s s2 s3 : GameState)
    (h1 : startSession player now s = some s2)
    (h2 : endSession player tal t2 s2 = some s3) :
    s.totalUnclaimedRewards + s.maxSessionDuration * s.rewardRatePerSecond ≤ s.balances gameAddr ∧
    s3.totalUnclaimedRewards ≤ s2.totalUnclaimedRewards +
      3 * (s2.maxSessionDuration * s2.rewardRatePerSecond) := by
  obtain ⟨hpool, -, -, -⟩ := startSession_some_pool h1
  obtain ⟨-, -, -, htur, -⟩ := endSession_char h2
  refine ⟨hpool, ?_⟩
  have hb := rewardFormula_le (s2.sessions player).startTime s2.maxSessionDuration
    s2.rewardRatePerSecond tal t2
  omega

/-- Closed witness for the amended C2 theorem on the concrete trace: player 1
starts at t = 0 and ends at t = 60 in the default configuration. -/
theorem C2_amended_witness :
    tr0.totalUnclaimedRewards + tr0.maxSessionDuration * tr0.rewardRatePerSecond ≤
      tr0.balances gameAddr ∧
    tr2.totalUnclaimedRewards ≤ tr1.totalUnclaimedRewards +
      3 * (tr1.maxSessionDuration * tr1.rewardRatePerSecond) :=
  C2_amended 1 0 0 60 tr0 tr1 tr2 rfl rfl

/-- C5: the claim is false on the code.  In the reachable state tr6 the
player-1 schedule is nonempty and a session is active, so endSession will
invoke _addToVesting on it, yet _addToVesting reverts (the internal
getClaimableAmount recomputation underflows) instead of performing the
reset-on-add update. -/
theorem C5_counterexample :
    Reachable 604981 tr6 ∧
    (tr6.vestingSchedules 1).totalAmount ≠ 0 ∧
    (tr6.sessions 1).isActive = true ∧
    addToVesting 1 999999999999999960 604981 tr6 = none :=
  ⟨tr6_reach, by decide, by decide, rfl⟩

/-- C5 amended: on a nonempty schedule, whenever the internal
getClaimableAmount recomputation succeeds (the schedule's vested amount has
not fallen below claimedAmount) and the checked additions stay below 2^256,
_addToVesting performs exactly the specification's reset-on-add policy;
when that recomputation underflows, _addToVesting reverts instead. -/
theorem C5_amended (player amount now c : Nat) (s : GameState)
    (hne : (s.vestingSchedules player).totalAmount ≠ 0)
    (hc : getClaimableAmount player now s = some c)
    (hcv : c + (s.vestingSchedules player).claimedAmount < U256)
    (hnt : (s.vestingSchedules player).totalAmount + amount < U256) :
    addToVesting player amount now s = some (resetOnAddPolicy player amount now s) := by
  have hle := claimable_le_total hc
  unfold addToVesting resetOnAddPolicy
  simp only []
  rw [if_neg hne, hc, Option.some_bind]
  have h1 : cadd c (s.vestingSchedules player).claimedAmount =
      some (c + (s.vestingSchedules player).claimedAmount) := by
    rw [cadd_eq_some]
    exact ⟨hcv, rfl⟩
  rw [h1, Option.some_bind]
  have h2 : cadd (s.vestingSchedules player).totalAmount amount =
      some ((s.vestingSchedules player).totalAmount + amount) := by
    rw [cadd_eq_some]
    exact ⟨hnt, rfl⟩
  rw [h2, Option.some_bind]
  by_cases hlt : (s.vestingSchedules player).claimedAmount <
      c + (s.vestingSchedules player).claimedAmount
  · rw [if_pos hlt]
    have h3 : csub (c + (s.vestingSchedules player).claimedAmount)
        (s.vestingSchedules player).claimedAmount = some c := by
      rw [csub_eq_some]
      constructor <;> omega
    rw [h3, Option.some_bind]
    have h4 : csub ((s.vestingSchedules player).totalAmount + amount) c =
        some ((s.vestingSchedules player).totalAmount + amount - c) := by
      rw [csub_eq_some]
      constructor <;> omega
    rw [h4, Option.some_bind]
  · rw [if_neg hlt]

/-- Closed witness for the amended C5 theorem at the half-vested demo
schedule: adding 50 wei resets the schedule to 150 total with 10 claimed. -/
theorem C5_amended_witness :
    addToVesting 1 50 2 sDemo = some (resetOnAddPolicy 1 50 2 sDemo) :=
  C5_amended 1 50 2 10 sDemo (by decide) (by decide) (by decide) (by decide)

/-- C6: the claim is false on the code.  In the reachable state tr6 player 1
has an active session of age exactly minSessionDuration, yet endSession(0)
reverts (the vesting update underflows) instead of storing the formula
reward, so no reward is credited for this admissible call. -/
theorem C6_counterexample :
    Reachable 604981 tr6 ∧ (tr6.sessions 1).isActive = true ∧
    (tr6.sessions 1).startTime + tr6.minSessionDuration ≤ 604981 ∧
    endSession 1 0 604981 tr6 = none :=
  ⟨tr6_reach, by decide, by decide, rfl⟩

/-- C6 amended: whenever endSession succeeds, the credited reward is exactly
min(now - startTime, maxSessionDuration) x rewardRatePerSecond x
(100 + min(talismans x 10, 200)) / 100 with integer division: it is stored
(uint128-truncated) in the session's rewardEarned, added to the unclaimed
counter, and added (uint128-truncated) to the schedule's totalAmount. -/
theorem C6_amended (player tal now : Nat) (s s2 : GameState)
    (h : endSession player tal now s = some s2) :
    (s2.sessions player).rewardEarned =
      toU128 (rewardFormula (s.sessions player).startTime s.maxSessionDuration
        s.rewardRatePerSecond tal now) ∧
    s2.totalUnclaimedRewards = s.totalUnclaimedRewards +
      rewardFormula (s.sessions player).startTime s.maxSessionDuration
        s.rewardRatePerSecond tal now ∧
    (s2.vestingSchedules player).totalAmount =
      toU128 ((s.vestingSchedules player).totalAmount +
        rewardFormula (s.sessions player).startTime s.maxSessionDuration
          s.rewardRatePerSecond tal now) := by
  obtain ⟨-, -, h1, h2, h3⟩ := endSession_char h
  exact ⟨h1, h2, h3⟩

/-- Closed witness for the amended C6 theorem on the concrete trace: the
session started at t = 0 and ended at t = 60 with 0 talismans. -/
theorem C6_amended_witness :
    (tr2.sessions 1).rewardEarned =
      toU128 (rewardFormula (tr1.sessions 1).startTime tr1.maxSessionDuration
        tr1.rewardRatePerSecond 0 60) ∧
    tr2.totalUnclaimedRewards = tr1.totalUnclaimedRewards +
      rewardFormula (tr1.sessions 1).startTime tr1.maxSessionDuration
        tr1.rewardRatePerSecond 0 60 ∧
    (tr2.vestingSchedules 1).totalAmount =
      toU128 ((tr1.vestingSchedules 1).totalAmount +
        rewardFormula (tr1.sessions 1).startTime tr1.maxSessionDuration
          tr1.rewardRatePerSecond 0 60) :=
  C6_amended 1 0 60 tr1 tr2 rfl

/-- C8: a player's session lives in a single mapping slot, so at most one
record per player exists by construction; a startSession while that record
is active always reverts, and the revert rolls back every write, leaving all
token balances and the stored session unchanged. -/
theorem C8_session_exclusive (player now : Nat) (s : GameState)
    (h : (s.sessions player).isActive = true) :
    startSession player now s = none ∧ stepD (startSession player now) s = s := by
  have hnone : startSession player now s = none := by
    unfold startSession
    by_cases hp : s.paused = true
    · rw [if_pos hp]
    · rw [if_neg hp, if_pos h]
  refine ⟨hnone, ?_⟩
  unfold stepD
  rw [hnone]
  rfl

/-- Closed witness for the C8 theorem at a demo state with an active
player-1 session. -/
theorem C8_session_exclusive_witness :
    startSession 1 5 sDemoActive = none ∧ stepD (startSession 1 5) sDemoActive = sDemoActive :=
  C8_session_exclusive 1 5 sDemoActive (by decide)

/-- C3: the claim is false on the code.  MockEntryPoint.handleOps never
compares op.nonce with the tracked nonce: the operation opStale carries
nonce 7 while its sender's tracked nonce is 0, yet handleOps executes its
callData (the execution log contains it) and bumps the tracked nonce to 1
instead of rejecting the operation. -/
theorem C3_counterexample :
    opStale.nonce ≠ noncesDemo opStale.sender ∧
    (handleOps execAccept [opStale] noncesDemo () []).map (fun r => r.2.2) =
      some [(opStale.sender, opStale.callData)] ∧
    (handleOps execAccept [opStale] noncesDemo () []).map (fun r => r.1 opStale.sender) =
      some 1 :=
  ⟨by decide, rfl, rfl⟩

/-- C3 amended: the dispatcher performs no nonce validation at all; for any
single-operation batch whose inner call succeeds, handleOps executes the
callData and increments the sender's tracked nonce by one, whatever the
operation's nonce field holds relative to the tracked value. -/
theorem C3_amended {W : Type} (exec : Nat → CallData → W → Option W)
    (op : EPUserOperation) (nonces : Nat → Nat) (w w2 : W)
    (hexec : exec op.sender op.callData w = some w2) :
    handleOps exec [op] nonces w [] =
      some (upd nonces op.sender (nonces op.sender + 1), w2, [(op.sender, op.callData)]) := by
  unfold handleOps
  rw [hexec, Option.some_bind]
  rfl

/-- Closed witness for the amended C3 theorem on the stale-nonce operation. -/
theorem C3_amended_witness :
    handleOps execAccept [opStale] noncesDemo () [] =
      some (upd noncesDemo opStale.sender (noncesDemo opStale.sender + 1), (),
        [(opStale.sender, opStale.callData)]) :=
  C3_amended execAccept opStale noncesDemo () () rfl

/-- C4: the claim is false on the code.  The signature of opBadSig recovers
to address 99, not to the account owner 7, so the account's signature check
would return 1; yet handleOps never consults it and executes the operation's
callData through the account (the caller being the entry point satisfies the
account's only access control). -/
theorem C4_counterexample :
    validateSignature opBadSig 42 acctDemo = 1 ∧
    (handleOps execViaAccount [opBadSig] noncesDemo () []).map (fun r => r.2.2) =
      some [(opBadSig.sender, opBadSig.callData)] :=
  ⟨by decide, rfl⟩

/-- C4 amended: the account's _validateSignature does return failure (1) for
any signature that does not recover to the owner, but the dispatch pipeline
never invokes it: the result of handleOps is entirely independent of the
operations' signature fields. -/
theorem C4_amended {W : Type} (exec : Nat → CallData → W → Option W)
    (op : EPUserOperation) (sig1 sig2 : List Nat) (nonces : Nat → Nat) (w : W)
    (userOpHash : Nat) (acct : AccountState)
    (hbad : ecrecover (ethSignedMessageHash userOpHash) sig1 ≠ acct.owner) :
    validateSignature { op with signature := sig1 } userOpHash acct = 1 ∧
    handleOps exec [{ op with signature := sig1 }] nonces w [] =
      handleOps exec [{ op with signature := sig2 }] nonces w [] := by
  constructor
  · show (if ecrecover (ethSignedMessageHash userOpHash) sig1 = acct.owner then 0 else 1) = 1
    rw [if_neg hbad]
  · rfl

/-- Closed witness for the amended C4 theorem at the demo account. -/
theorem C4_amended_witness :
    validateSignature { opStale with signature := [99, ethSignedMessageHash 42] } 42 acctDemo = 1 ∧
    handleOps execViaAccount [{ opStale with signature := [99, ethSignedMessageHash 42] }]
        noncesDemo () [] =
      handleOps execViaAccount [{ opStale with signature := [] }] noncesDemo () [] :=
  C4_amended execViaAccount opStale [99, ethSignedMessageHash 42] [] noncesDemo () 42 acctDemo
    (by decide)

/-- The idealised keccak of a nonempty word list is never zero. -/
theorem keccakM_ne_zero (a : Nat) (l : List Nat) : keccakM (a :: l) ≠ 0 := by
  unfold keccakM
  omega

/-- The idealised keccak is injective (collision-freeness of the model). -/
theorem keccakM_injective {l1 l2 : List Nat} (h : keccakM l1 = keccakM l2) : l1 = l2 := by
  induction l1 generalizing l2 with
  | nil =>
    cases l2 with
    | nil => rfl
    | cons b m =>
      unfold keccakM at h
      omega
  | cons a l ih =>
    cases l2 with
    | nil =>
      unfold keccakM at h
      omega
    | cons b m =>
      unfold keccakM at h
      have h2 : Nat.pair a (keccakM l) = Nat.pair b (keccakM m) := by omega
      have h3 := congrArg Nat.unpair h2
      rw [Nat.unpair_pair, Nat.unpair_pair] at h3
      simp only [Prod.mk.injEq] at h3
      obtain ⟨h4, h5⟩ := h3
      subst h4
      rw [ih h5]

/-- The daily usage read after the lazy reset equals the reset-adjusted
usage. -/
theorem reset_used (user now : Nat) (ps : PaymasterState) :
    (resetDailyLimitIfNeeded user now ps).dailySponsorshipUsed user =
      adjustedDailyUsed user now ps := by
  unfold resetDailyLimitIfNeeded adjustedDailyUsed
  by_cases hr : shouldResetDailyLimit user now ps = true
  · simp only [if_pos hr]
    exact upd_same _ _ _
  · simp only [if_neg hr]

/-- The lazy reset does not change the configured daily limit. -/
theorem reset_limit (user now : Nat) (ps : PaymasterState) :
    (resetDailyLimitIfNeeded user now ps).dailyLimitPerUser = ps.dailyLimitPerUser := by
  unfold resetDailyLimitIfNeeded
  by_cases hr : shouldResetDailyLimit user now ps = true
  · simp only [if_pos hr]
  · simp only [if_neg hr]

/-- The lazy reset does not change the game-call validation verdict. -/
theorem validateGameCall_reset (cd : CallData) (user now : Nat) (ps : PaymasterState) :
    validateGameCall cd (resetDailyLimitIfNeeded user now ps) = validateGameCall cd ps := by
  unfold resetDailyLimitIfNeeded
  by_cases hr : shouldResetDailyLimit user now ps = true
  · simp only [if_pos hr]
    rfl
  · simp only [if_neg hr]

/-- C7: validatePaymasterUserOp, called by the entry point, succeeds exactly
when (a) maxCost is within maxCostPerUserOp, (b) the reset-adjusted daily
usage plus maxCost stays within dailyLimitPerUser, and (c) the call data is
an execute call to the registered game contract with an allow-listed inner
selector; on success the only storage change is the lazy reset plus the
sender's daily usage growing by exactly maxCost, with context
(sender, maxCost) and validationData 0 returned; on failure the transaction
reverts, so no state changes. -/
theorem C7_validate (op : EPUserOperation) (h maxCost now : Nat) (ps : PaymasterState)
    (hlim : ps.dailyLimitPerUser < U256) :
    validatePaymasterUserOp entryPointAddr op h maxCost now ps =
        some (paymasterAfterSponsor op.sender maxCost now ps, ((op.sender, maxCost), 0)) ↔
      (maxCost ≤ ps.maxCostPerUserOp ∧
       adjustedDailyUsed op.sender now ps + maxCost ≤ ps.dailyLimitPerUser ∧
       validateGameCall op.callData ps = true) := by
  unfold validatePaymasterUserOp
  rw [if_neg (by simp)]
  constructor
  · intro hsome
    by_cases ha : ps.maxCostPerUserOp < maxCost
    · rw [if_pos ha] at hsome
      exact absurd hsome (by simp)
    · rw [if_neg ha] at hsome
      simp only [] at hsome
      rw [Option.bind_eq_some] at hsome
      obtain ⟨total, hct, hsome⟩ := hsome
      rw [cadd_eq_some, reset_used] at hct
      by_cases hb : (resetDailyLimitIfNeeded op.sender now ps).dailyLimitPerUser < total
      · rw [if_pos hb] at hsome
        exact absurd hsome (by simp)
      · rw [if_neg hb] at hsome
        rw [reset_limit] at hb
        by_cases hc : validateGameCall op.callData (resetDailyLimitIfNeeded op.sender now ps) = true
        · rw [validateGameCall_reset] at hc
          exact ⟨by omega, by omega, hc⟩
        · rw [if_pos (by simpa using hc)] at hsome
          exact absurd hsome (by simp)
  · intro hcond
    obtain ⟨ha, hb, hc⟩ := hcond
    rw [if_neg (by omega)]
    simp only []
    have hct : cadd ((resetDailyLimitIfNeeded op.sender now ps).dailySponsorshipUsed op.sender)
        maxCost = some (adjustedDailyUsed op.sender now ps + maxCost) := by
      rw [reset_used, cadd_eq_some]
      exact ⟨by omega, rfl⟩
    rw [hct, Option.some_bind]
    rw [if_neg (by rw [reset_limit]; omega)]
    rw [if_neg (by rw [validateGameCall_reset]; simp [hc])]
    rfl

/-- Closed witness for the C7 theorem at the demo paymaster: a 500 wei cost
against a 1000 wei per-operation cap and 100 wei already used of the 10000
wei daily budget, with an allow-listed game call. -/
theorem C7_validate_witness :
    validatePaymasterUserOp entryPointAddr opGame 0 500 50 psDemo =
        some (paymasterAfterSponsor opGame.sender 500 50 psDemo, ((opGame.sender, 500), 0)) ↔
      (500 ≤ psDemo.maxCostPerUserOp ∧
       adjustedDailyUsed opGame.sender 50 psDemo + 500 ≤ psDemo.dailyLimitPerUser ∧
       validateGameCall opGame.callData psDemo = true) :=
  C7_validate opGame 0 500 50 psDemo (by decide)

/-- C9: getAddress returns the same address before and after createAccount,
namely the address createAccount itself returns, and any repeated
createAccount call for the same owner, with any salt, returns the recorded
first account and leaves the factory unchanged. -/
theorem C9_factory (owner salt salt2 : Nat) (fs : FactoryState)
    (h : fs.ownerToAccount owner = 0) :
    getAddress owner salt fs = (createAccount owner salt fs).1 ∧
    getAddress owner salt (createAccount owner salt fs).2 = (createAccount owner salt fs).1 ∧
    createAccount owner salt2 (createAccount owner salt fs).2 =
      ((createAccount owner salt fs).1, (createAccount owner salt fs).2) := by
  have hne : cloneDeterministicAddr accountImplementationAddr (saltHashOf owner salt) ≠ 0 :=
    keccakM_ne_zero _ _
  have hcreate : createAccount owner salt fs =
      (cloneDeterministicAddr accountImplementationAddr (saltHashOf owner salt),
        { ownerToAccount := upd fs.ownerToAccount owner
            (cloneDeterministicAddr accountImplementationAddr (saltHashOf owner salt)) }) := by
    unfold createAccount
    rw [if_neg (by simp [h])]
  rw [hcreate]
  refine ⟨?_, ?_, ?_⟩
  · unfold getAddress
    rw [if_neg (by simp [h])]
  · unfold getAddress
    rw [if_pos (by simpa [upd_same] using hne)]
    simp [upd_same]
  · unfold createAccount
    rw [if_pos (by simpa [upd_same] using hne)]
    simp [upd_same]

/-- Closed witness for the C9 theorem at a fresh factory with owner 3 and
salts 4 and 11. -/
theorem C9_factory_witness :
    getAddress 3 4 fsEmpty = (createAccount 3 4 fsEmpty).1 ∧
    getAddress 3 4 (createAccount 3 4 fsEmpty).2 = (createAccount 3 4 fsEmpty).1 ∧
    createAccount 3 11 (createAccount 3 4 fsEmpty).2 =
      ((createAccount 3 4 fsEmpty).1, (createAccount 3 4 fsEmpty).2) :=
  C9_factory 3 4 11 fsEmpty rfl

/-- C10: the builder's hash ignores the signature field, and hashing the same
operation under different chain ids, or under different entry point
addresses, yields different hashes (keccak being modelled injective). -/
theorem C10_hash_props (op : UserOpTS) (sig2 : List Nat) (ep ep2 c c2 : Nat)
    (hc : c ≠ c2) (he : ep ≠ ep2) :
    getUserOpHash { op with signature := sig2 } ep c = getUserOpHash op ep c ∧
    getUserOpHash op ep c ≠ getUserOpHash op ep c2 ∧
    getUserOpHash op ep c ≠ getUserOpHash op ep2 c := by
  refine ⟨rfl, ?_, ?_⟩
  · intro hh
    have h2 := keccakM_injective hh
    simp only [List.cons.injEq, and_true] at h2
    exact hc h2.2.2
  · intro hh
    have h2 := keccakM_injective hh
    simp only [List.cons.injEq, and_true] at h2
    exact he h2.2

/-- Closed witness for the C10 theorem at a small concrete operation, chain
ids 1 and 2 and entry point addresses 3 and 4. -/
theorem C10_hash_props_witness :
    getUserOpHash { opTSDemo with signature := [9] } 3 1 = getUserOpHash opTSDemo 3 1 ∧
    getUserOpHash opTSDemo 3 1 ≠ getUserOpHash opTSDemo 3 2 ∧
    getUserOpHash opTSDemo 3 1 ≠ getUserOpHash opTSDemo 4 1 :=
  C10_hash_props opTSDemo [9] 3 4 1 2 (by decide) (by decide)
